import Mathlib

set_option autoImplicit false

namespace SaidaPosicional

/-- JavaScript runtime values, as produced by `JSON.parse` and mutated by the
request handler in `src/worker/server.js`.  Arrays carry a list of extra named
properties, because the handler may execute `data.posicional = []` on a value
that is an array (JS arrays accept named properties, which `JSON.stringify`
later drops).  JSON numbers are kept as their source lexeme: the program
performs no arithmetic on them anywhere. -/
inductive JVal where
  | undefined
  | null
  | bool (b : Bool)
  | num (lit : String)
  | str (s : String)
  | arr (elems : List JVal) (props : List (String × JVal))
  | obj (props : List (String × JVal))
  deriving Repr

/-- `typeof v` in JavaScript, restricted to the values of the model.
Note `typeof null`, `typeof` of an array and `typeof` of an object are all
the string "object". -/
def typeofStr : JVal → String
  | .undefined => "undefined"
  | .null => "object"
  | .bool _ => "boolean"
  | .num _ => "number"
  | .str _ => "string"
  | .arr _ _ => "object"
  | .obj _ => "object"

/-- A JSON number lexeme denotes zero iff every digit of its mantissa
(the part before any exponent marker) is `0`. -/
def numLitIsZero (lit : String) : Bool :=
  (lit.toList.takeWhile (fun c => c != 'e' && c != 'E')).all
    (fun c => c == '0' || c == '-' || c == '.')

/-- JavaScript truthiness of a value.  `NaN` cannot arise from `JSON.parse`,
so a number is falsy exactly when its mantissa is zero. -/
def truthy : JVal → Bool
  | .undefined => false
  | .null => false
  | .bool b => b
  | .num lit => !(numLitIsZero lit)
  | .str s => !(s.isEmpty)
  | .arr _ _ => true
  | .obj _ => true

/-- `Array.isArray` from JavaScript. -/
def isArrayVal : JVal → Bool
  | .arr _ _ => true
  | _ => false

/-- Lookup of a named property in a property list; missing keys read as
`undefined`, as in JavaScript. -/
def propLookup (ps : List (String × JVal)) (k : String) : JVal :=
  match ps.find? (fun p => p.1 == k) with
  | some p => p.2
  | none => .undefined

/-- JavaScript property read `v.k`.  Objects and arrays expose their named
properties; on primitives the read yields `undefined` (the handler never
reads a property of `null` or `undefined`, the only cases that would throw). -/
def getProp : JVal → String → JVal
  | .obj ps, k => propLookup ps k
  | .arr _ ps, k => propLookup ps k
  | _, _ => .undefined

/-- Whether a named property is present on the value. -/
def hasProp (v : JVal) (k : String) : Bool :=
  match v with
  | .obj ps => ps.any (fun p => p.1 == k)
  | .arr _ ps => ps.any (fun p => p.1 == k)
  | _ => false

/-- JavaScript assignment semantics on a property list: an existing key keeps
its position and gets the new value, a new key is appended at the end. -/
def setEntry (ps : List (String × JVal)) (k : String) (v : JVal) :
    List (String × JVal) :=
  if ps.any (fun p => p.1 == k) then
    ps.map (fun p => if p.1 == k then (k, v) else p)
  else ps ++ [(k, v)]

/-- JavaScript property write `v.k = x`.  Objects and arrays take the new
property; on primitives non-strict mode silently discards the write (the
handler only ever writes to an object or an array). -/
def setProp : JVal → String → JVal → JVal
  | .obj ps, k, v => .obj (setEntry ps k v)
  | .arr es ps, k, v => .arr es (setEntry ps k v)
  | w, _, _ => w

/-- One hexadecimal digit, lowercase, as emitted by `JSON.stringify` for
control-character escapes. -/
def hexDigit (n : Nat) : Char :=
  if n < 10 then Char.ofNat (48 + n) else Char.ofNat (87 + n)

/-- Four-digit lowercase hexadecimal rendering of a code point below 2^16. -/
def hex4 (n : Nat) : String :=
  String.mk [hexDigit (n / 4096 % 16), hexDigit (n / 256 % 16),
             hexDigit (n / 16 % 16), hexDigit (n % 16)]

/-- `JSON.stringify` escaping of one character inside a string literal. -/
def escFragment (c : Char) : String :=
  if c = '"' then "\\\""
  else if c = '\\' then "\\\\"
  else if c = '\x08' then "\\b"
  else if c = '\x0c' then "\\f"
  else if c = '\n' then "\\n"
  else if c = '\r' then "\\r"
  else if c = '\t' then "\\t"
  else if c.toNat < 32 then "\\u" ++ hex4 c.toNat
  else String.singleton c

/-- `JSON.stringify` rendering of a string value, quotes included. -/
def quoteStr (s : String) : String :=
  "\"" ++ String.join (s.toList.map escFragment) ++ "\""

mutual

/-- `JSON.stringify` on a value of the model.  Named properties of arrays are
dropped, as in JavaScript; object properties whose value is `undefined` are
skipped; an `undefined` element of an array renders as `null`.  (A top-level
`undefined` is never passed to `res.json` by the handler.) -/
def stringifyVal : JVal → String
  | .undefined => "null"
  | .null => "null"
  | .bool b => if b then "true" else "false"
  | .num lit => lit
  | .str s => quoteStr s
  | .arr es _ => "[" ++ stringifyElems es ++ "]"
  | .obj ps => "\x7b" ++ stringifyProps ps ++ "\x7d"

/-- Comma-separated rendering of array elements. -/
def stringifyElems : List JVal → String
  | [] => ""
  | [v] => stringifyVal v
  | v :: w :: rest => stringifyVal v ++ "," ++ stringifyElems (w :: rest)

/-- Comma-separated rendering of object properties, skipping entries whose
value is `undefined`. -/
def stringifyProps : List (String × JVal) → String
  | [] => ""
  | [(k, v)] =>
    match v with
    | .undefined => ""
    | _ => quoteStr k ++ ":" ++ stringifyVal v
  | (k, v) :: w :: rest =>
    match v with
    | .undefined => stringifyProps (w :: rest)
    | _ =>
      let restStr := stringifyProps (w :: rest)
      let headStr := quoteStr k ++ ":" ++ stringifyVal v
      if restStr = "" then headStr else headStr ++ "," ++ restStr

end

/-- JSON insignificant whitespace. -/
def isJsonWs (c : Char) : Bool :=
  c == ' ' || c == '\t' || c == '\n' || c == '\r'

/-- Drop leading JSON whitespace. -/
def skipWs (cs : List Char) : List Char := cs.dropWhile isJsonWs

/-- Value of a hexadecimal digit, if any. -/
def hexVal (c : Char) : Option Nat :=
  if c.isDigit then some (c.toNat - 48)
  else if 'a' ≤ c && c ≤ 'f' then some (c.toNat - 87)
  else if 'A' ≤ c && c ≤ 'F' then some (c.toNat - 55)
  else none

/-- The character denoted by a single-character JSON escape, if valid. -/
def escCharFor (e : Char) : Option Char :=
  if e = '"' then some '"'
  else if e = '\\' then some '\\'
  else if e = '/' then some '/'
  else if e = 'b' then some '\x08'
  else if e = 'f' then some '\x0c'
  else if e = 'n' then some '\n'
  else if e = 'r' then some '\r'
  else if e = 't' then some '\t'
  else none

/-- Parse the body of a JSON string literal after the opening quote,
returning the decoded characters and the remaining input.  Control
characters must be escaped; invalid escapes fail, as in `JSON.parse`.
(Lone UTF-16 surrogates, legal in JavaScript strings, are outside the
model; no claim involves them.) -/
def parseStrChars : List Char → Option (List Char × List Char)
  | [] => none
  | c :: rest =>
    if c = '"' then some ([], rest)
    else if c = '\\' then
      match rest with
      | [] => none
      | e :: rest2 =>
        if e = 'u' then
          match rest2 with
          | a :: b :: c2 :: d :: rest3 =>
            match hexVal a, hexVal b, hexVal c2, hexVal d with
            | some ha, some hb, some hc, some hd =>
              match parseStrChars rest3 with
              | some (tail, rem) =>
                some (Char.ofNat (((ha * 16 + hb) * 16 + hc) * 16 + hd) :: tail, rem)
              | none => none
            | _, _, _, _ => none
          | _ => none
        else
          match escCharFor e with
          | some ec =>
            match parseStrChars rest2 with
            | some (tail, rem) => some (ec :: tail, rem)
            | none => none
          | none => none
    else if c.toNat < 32 then none
    else
      match parseStrChars rest with
      | some (tail, rem) => some (c :: tail, rem)
      | none => none

/-- Longest prefix of decimal digits and the rest. -/
def spanDigits (cs : List Char) : List Char × List Char :=
  (cs.takeWhile Char.isDigit, cs.dropWhile Char.isDigit)

/-- Parse an optional exponent part of a JSON number; `acc` is the lexeme
collected so far. -/
def parseExpPart (acc : List Char) (cs : List Char) : Option (String × List Char) :=
  match cs with
  | e :: t =>
    if e = 'e' || e = 'E' then
      let (sgn, t2) := match t with
        | '+' :: u => (['+'], u)
        | '-' :: u => (['-'], u)
        | _ => (([] : List Char), t)
      let (ds, rest) := spanDigits t2
      if ds.isEmpty then none
      else some (String.mk (acc ++ [e] ++ sgn ++ ds), rest)
    else some (String.mk acc, cs)
  | [] => some (String.mk acc, [])

/-- Parse an optional fraction part followed by an optional exponent part. -/
def parseFracExp (acc : List Char) (cs : List Char) : Option (String × List Char) :=
  match cs with
  | '.' :: t =>
    let (ds, rest) := spanDigits t
    if ds.isEmpty then none
    else parseExpPart (acc ++ ['.'] ++ ds) rest
  | _ => parseExpPart acc cs

/-- Parse a JSON number per the JSON grammar (no leading zeros, mandatory
digits after a decimal point or exponent marker), returning its lexeme. -/
def parseNumLit (cs : List Char) : Option (String × List Char) :=
  let (sign, cs1) := match cs with
    | '-' :: t => ((['-'] : List Char), t)
    | _ => (([] : List Char), cs)
  match cs1 with
  | [] => none
  | c :: t =>
    if c = '0' then
      match t with
      | d :: _ =>
        if d.isDigit then none else parseFracExp (sign ++ ['0']) t
      | [] => parseFracExp (sign ++ ['0']) []
    else if c.isDigit then
      let (ds, rest) := spanDigits cs1
      parseFracExp (sign ++ ds) rest
    else none

/-- Match a fixed literal at the head of the input. -/
def stripLit (lit : List Char) (cs : List Char) : Option (List Char) :=
  if cs.take lit.length = lit then some (cs.drop lit.length) else none

mutual

/-- Fuel-indexed recursive-descent parser for one JSON value, modelling
`JSON.parse`: leading whitespace allowed, strict grammar (no trailing
commas, double-quoted strings only). -/
def parseValue : Nat → List Char → Option (JVal × List Char)
  | 0, _ => none
  | Nat.succ fuel, cs =>
    match skipWs cs with
    | [] => none
    | c :: rest =>
      if c = '"' then
        match parseStrChars rest with
        | some (chars, rem) => some (.str (String.mk chars), rem)
        | none => none
      else if c = '[' then parseArrAfterBracket fuel rest
      else if c = '\x7b' then parseObjAfterBrace fuel rest
      else if c = 't' then
        match stripLit ['r', 'u', 'e'] rest with
        | some rem => some (.bool true, rem)
        | none => none
      else if c = 'f' then
        match stripLit ['a', 'l', 's', 'e'] rest with
        | some rem => some (.bool false, rem)
        | none => none
      else if c = 'n' then
        match stripLit ['u', 'l', 'l'] rest with
        | some rem => some (.null, rem)
        | none => none
      else
        match parseNumLit (c :: rest) with
        | some (lit, rem) => some (.num lit, rem)
        | none => none

/-- Parse the remainder of an array after its opening bracket. -/
def parseArrAfterBracket : Nat → List Char → Option (JVal × List Char)
  | 0, _ => none
  | Nat.succ fuel, cs =>
    match skipWs cs with
    | ']' :: rest => some (.arr [] [], rest)
    | _ => parseArrItems fuel cs []

/-- Parse one or more comma-separated array elements up to the closing
bracket. -/
def parseArrItems : Nat → List Char → List JVal → Option (JVal × List Char)
  | 0, _, _ => none
  | Nat.succ fuel, cs, acc =>
    match parseValue fuel cs with
    | none => none
    | some (v, rem) =>
      match skipWs rem with
      | ',' :: rem2 => parseArrItems fuel rem2 (acc ++ [v])
      | ']' :: rem2 => some (.arr (acc ++ [v]) [], rem2)
      | _ => none

/-- Parse the remainder of an object after its opening brace. -/
def parseObjAfterBrace : Nat → List Char → Option (JVal × List Char)
  | 0, _ => none
  | Nat.succ fuel, cs =>
    match skipWs cs with
    | '\x7d' :: rest => some (.obj [], rest)
    | _ => parseObjItems fuel cs []

/-- Parse one or more comma-separated object members up to the closing
brace.  A duplicate key overwrites the earlier value in place, as in
JavaScript. -/
def parseObjItems : Nat → List Char → List (String × JVal) →
    Option (JVal × List Char)
  | 0, _, _ => none
  | Nat.succ fuel, cs, acc =>
    match skipWs cs with
    | '"' :: rest =>
      match parseStrChars rest with
      | none => none
      | some (kcs, rem) =>
        match skipWs rem with
        | ':' :: rem2 =>
          match parseValue fuel rem2 with
          | none => none
          | some (v, rem3) =>
            let acc2 := setEntry acc (String.mk kcs) v
            match skipWs rem3 with
            | ',' :: rem4 => parseObjItems fuel rem4 acc2
            | '\x7d' :: rem4 => some (.obj acc2, rem4)
            | _ => none
        | _ => none
    | _ => none

end

/-- Model of `JSON.parse`: parse one value, then require only whitespace to
the end of input.  `none` models the thrown `SyntaxError`.  The fuel bound
exceeds any possible recursion depth for the given input. -/
def jsonParse (s : String) : Option JVal :=
  match parseValue (4 * s.length + 4) s.toList with
  | some (v, rem) => if (skipWs rem).isEmpty then some v else none
  | none => none

/-- The file-system state observed by one invocation of the handler:
whether `fs.existsSync(SAIDA_PATH)` holds, and what `fs.readFileSync`
yields when attempted — either the file contents or a thrown I/O error,
carried as its message. -/
structure FsState where
  fileExists : Bool
  readResult : Except String String
  deriving Repr

/-- An HTTP response as produced by the handler: the status code and the
value passed to `res.json` (`res.json` serializes it with
`JSON.stringify`; status 200 is the Express default). -/
structure Response where
  status : Nat
  body : JVal
  deriving Repr

/-- The default document `(posicional: [], ultima_atualizacao: null)`
built by the handler for a missing file or a non-object parse result. -/
def defaultDoc : JVal :=
  .obj [("posicional", .arr [] []), ("ultima_atualizacao", .null)]

/-- The generic error body `(erro: "Falha ao ler dados de saída")` sent
with status 500 from the catch block. -/
def errBody : JVal := .obj [("erro", .str "Falha ao ler dados de saída")]

/-- The diagnostic line written by `console.error` in the catch block;
`detail` stands for the rendering of the caught error. -/
def logMsg (detail : String) : String :=
  "[ERRO] Lendo saida_posicional.json: " ++ detail

/-- Shallow embedding of the `GET /api/saida-posicional` handler of
`src/worker/server.js`, returning the response together with the list of
diagnostic log lines emitted.  The branches mirror the source line by
line: existence check, read, parse, the two normalization conditionals
`!data || typeof data !== "object"` and `!Array.isArray(data.posicional)`,
and the catch block.  A parse error is logged with the thrown
`SyntaxError` (its JS message text is not modelled). -/
def handle (s : FsState) : Response × List String :=
  if !s.fileExists then
    (⟨200, defaultDoc⟩, [])
  else
    match s.readResult with
    | .error e => (⟨500, errBody⟩, [logMsg e])
    | .ok raw =>
      match jsonParse raw with
      | none => (⟨500, errBody⟩, [logMsg "SyntaxError"])
      | some v =>
        let data := if !(truthy v) || typeofStr v != "object" then defaultDoc else v
        let data2 :=
          if !(isArrayVal (getProp data "posicional")) then
            setProp data "posicional" (.arr [] [])
          else data
        (⟨200, data2⟩, [])

/-- The HTTP response of one invocation. -/
def handler (s : FsState) : Response := (handle s).1

/-- The diagnostic log lines of one invocation. -/
def handlerLog (s : FsState) : List String := (handle s).2

/-- The serialized HTTP response body. -/
def bodyString (r : Response) : String := stringifyVal r.body

/-- The ReadFailure outcome of the spec's error taxonomy, expressed on the
observed file-system state: the file exists and either reading it throws
or its content is not parseable as JSON. -/
def isReadFailure (s : FsState) : Bool :=
  s.fileExists &&
    (match s.readResult with
     | .error _ => true
     | .ok raw => (jsonParse raw).isNone)

/- ------------------------------------------------------------------ -/
/- Helper lemmas on property lists.                                    -/
/- ------------------------------------------------------------------ -/

theorem propLookup_cons (a : String × JVal) (l : List (String × JVal)) (k : String) :
    propLookup (a :: l) k = if a.1 == k then a.2 else propLookup l k := by
  cases h : (a.1 == k) <;> simp [propLookup, List.find?_cons, h]

theorem propLookup_mapSet_self (ps : List (String × JVal)) (k : String) (v : JVal)
    (h : ps.any (fun p => p.1 == k) = true) :
    propLookup (ps.map fun p => if p.1 == k then (k, v) else p) k = v := by
  induction ps with
  | nil => simp at h
  | cons a l ih =>
    rw [List.map_cons]
    by_cases hak : a.1 = k
    · have hb : (a.1 == k) = true := beq_iff_eq.mpr hak
      rw [if_pos hb, propLookup_cons]
      simp
    · have hb : (a.1 == k) = false := beq_eq_false_iff_ne.mpr hak
      rw [if_neg (by simp [hb]), propLookup_cons, if_neg (by simp [hb])]
      apply ih
      simpa [List.any_cons, hb] using h

theorem propLookup_append_self (ps : List (String × JVal)) (k : String) (v : JVal)
    (h : ps.any (fun p => p.1 == k) = false) :
    propLookup (ps ++ [(k, v)]) k = v := by
  induction ps with
  | nil => simp [propLookup_cons]
  | cons a l ih =>
    rw [List.cons_append, propLookup_cons]
    have hb : (a.1 == k) = false := by
      cases hx : (a.1 == k) <;> simp [List.any_cons, hx] at h ⊢
    rw [if_neg (by simp [hb])]
    apply ih
    simpa [List.any_cons, hb] using h

theorem propLookup_setEntry_self (ps : List (String × JVal)) (k : String) (v : JVal) :
    propLookup (setEntry ps k v) k = v := by
  rw [setEntry]
  by_cases hany : ps.any (fun p => p.1 == k) = true
  · rw [if_pos hany]
    exact propLookup_mapSet_self ps k v hany
  · have hf : ps.any (fun p => p.1 == k) = false := by
      cases hx : ps.any (fun p => p.1 == k) <;> simp [hx] at hany ⊢
    rw [if_neg (by simp [hf])]
    exact propLookup_append_self ps k v hf

theorem propLookup_mapSet_ne (ps : List (String × JVal)) (k k2 : String) (v : JVal)
    (h : k2 ≠ k) :
    propLookup (ps.map fun p => if p.1 == k then (k, v) else p) k2 =
      propLookup ps k2 := by
  induction ps with
  | nil => rfl
  | cons a l ih =>
    rw [List.map_cons]
    by_cases hak : a.1 = k
    · have hb : (a.1 == k) = true := beq_iff_eq.mpr hak
      have hk2 : (k == k2) = false := beq_eq_false_iff_ne.mpr (Ne.symm h)
      have hk2a : (a.1 == k2) = false := beq_eq_false_iff_ne.mpr (hak ▸ Ne.symm h)
      rw [if_pos hb, propLookup_cons, propLookup_cons,
        if_neg (by simp [hk2]), if_neg (by simp [hk2a])]
      exact ih
    · have hb : (a.1 == k) = false := beq_eq_false_iff_ne.mpr hak
      rw [if_neg (by simp [hb]), propLookup_cons, propLookup_cons]
      cases hx : (a.1 == k2) with
      | false => rw [if_neg (by simp [hx]), if_neg (by simp [hx])]; exact ih
      | true => rfl

theorem propLookup_append_ne (ps : List (String × JVal)) (k k2 : String) (v : JVal)
    (h : k2 ≠ k) :
    propLookup (ps ++ [(k, v)]) k2 = propLookup ps k2 := by
  induction ps with
  | nil =>
    have hk2 : (k == k2) = false := beq_eq_false_iff_ne.mpr (Ne.symm h)
    simp [propLookup_cons, hk2, propLookup, List.find?]
  | cons a l ih =>
    rw [List.cons_append, propLookup_cons, propLookup_cons]
    cases hx : (a.1 == k2) <;> simp [hx, ih]

theorem propLookup_setEntry_ne (ps : List (String × JVal)) (k k2 : String) (v : JVal)
    (h : k2 ≠ k) :
    propLookup (setEntry ps k v) k2 = propLookup ps k2 := by
  rw [setEntry]
  by_cases hany : ps.any (fun p => p.1 == k) = true
  · rw [if_pos hany]
    exact propLookup_mapSet_ne ps k k2 v h
  · rw [if_neg hany]
    exact propLookup_append_ne ps k k2 v h

theorem any_mapSet_ne (ps : List (String × JVal)) (k k2 : String) (v : JVal)
    (h : k2 ≠ k) :
    (ps.map fun p => if p.1 == k then (k, v) else p).any (fun p => p.1 == k2) =
      ps.any (fun p => p.1 == k2) := by
  induction ps with
  | nil => rfl
  | cons a l ih =>
    rw [List.map_cons]
    by_cases hak : a.1 = k
    · have hb : (a.1 == k) = true := beq_iff_eq.mpr hak
      have hk2 : (k == k2) = false := beq_eq_false_iff_ne.mpr (Ne.symm h)
      have hk2a : (a.1 == k2) = false := beq_eq_false_iff_ne.mpr (hak ▸ Ne.symm h)
      rw [if_pos hb, List.any_cons, List.any_cons, hk2, hk2a,
        Bool.false_or, Bool.false_or]
      exact ih
    · have hb : (a.1 == k) = false := beq_eq_false_iff_ne.mpr hak
      rw [if_neg (by simp [hb]), List.any_cons, List.any_cons, ih]

theorem any_append_ne (ps : List (String × JVal)) (k k2 : String) (v : JVal)
    (h : k2 ≠ k) :
    (ps ++ [(k, v)]).any (fun p => p.1 == k2) = ps.any (fun p => p.1 == k2) := by
  have hk2 : (k == k2) = false := beq_eq_false_iff_ne.mpr (Ne.symm h)
  simp [List.any_append, List.any_cons, hk2]

theorem any_setEntry_ne (ps : List (String × JVal)) (k k2 : String) (v : JVal)
    (h : k2 ≠ k) :
    (setEntry ps k v).any (fun p => p.1 == k2) = ps.any (fun p => p.1 == k2) := by
  rw [setEntry]
  by_cases hany : ps.any (fun p => p.1 == k) = true
  · rw [if_pos hany]
    exact any_mapSet_ne ps k k2 v h
  · rw [if_neg hany]
    exact any_append_ne ps k k2 v h

/-- Characterization of the handler on a file whose content parses to a
JSON object: status 200, and the body is the object with its `posicional`
property replaced by the empty array unless it already is an array. -/
theorem handler_ok_obj (raw : String) (ps : List (String × JVal))
    (h : jsonParse raw = some (JVal.obj ps)) :
    handler ⟨true, Except.ok raw⟩ =
      ⟨200, if isArrayVal (propLookup ps "posicional") = true then JVal.obj ps
            else JVal.obj (setEntry ps "posicional" (JVal.arr [] []))⟩ := by
  unfold handler handle
  simp only [h, truthy, typeofStr, getProp, setProp, Bool.not_true,
    Bool.false_or, bne_self_eq_false, if_false, Bool.false_eq_true]
  by_cases harr : isArrayVal (propLookup ps "posicional") = true
  · simp [harr]
  · have hf : isArrayVal (propLookup ps "posicional") = false := by
      cases hx : isArrayVal (propLookup ps "posicional") <;> simp [hx] at harr ⊢
    simp [hf]

/- ------------------------------------------------------------------ -/
/- Claim theorems.                                                     -/
/- ------------------------------------------------------------------ -/

/-- Claim C3: whenever the configured artifact file is absent, the status
endpoint returns HTTP 200 with body exactly
`("posicional": [], "ultima_atualizacao": null)`, and absence is never
classified as an error: status 200, no diagnostic log line. -/
theorem c3_absent_default (r : Except String String) :
    handler ⟨false, r⟩ = ⟨200, defaultDoc⟩ ∧
    bodyString (handler ⟨false, r⟩) =
      "\x7b\"posicional\":[],\"ultima_atualizacao\":null\x7d" ∧
    (handler ⟨false, r⟩).status = 200 ∧ handlerLog ⟨false, r⟩ = [] :=
  ⟨rfl, rfl, rfl, rfl⟩

/-- Claim C5: for every artifact file whose content is syntactically
invalid JSON, the endpoint returns HTTP 500 with a body containing an
`erro` key, and never returns 200 for unparseable content. -/
theorem c5_invalid_json_500 (raw : String) (h : jsonParse raw = none) :
    handler ⟨true, Except.ok raw⟩ = ⟨500, errBody⟩ ∧
    hasProp (handler ⟨true, Except.ok raw⟩).body "erro" = true ∧
    (handler ⟨true, Except.ok raw⟩).status ≠ 200 := by
  have hh : handler ⟨true, Except.ok raw⟩ = ⟨500, errBody⟩ := by
    unfold handler handle
    simp [h]
  refine ⟨hh, ?_, ?_⟩
  · rw [hh]
    rfl
  · rw [hh]
    decide

/-- Witness for C5 at the concrete scenario D content. -/
theorem c5_invalid_json_500_witness :
    jsonParse "not valid json\x7b\x7b\x7b" = none ∧
    (handler ⟨true, Except.ok "not valid json\x7b\x7b\x7b"⟩).status ≠ 200 :=
  ⟨rfl, (c5_invalid_json_500 "not valid json\x7b\x7b\x7b" rfl).2.2⟩

/-- Claim C7: an I/O error raised while reading the existing file is
surfaced as HTTP 500 with the generic error body, which does not depend on
the error detail; the detail appears only in the diagnostic log line. -/
theorem c7_io_error (e : String) :
    handle ⟨true, Except.error e⟩ = (⟨500, errBody⟩, [logMsg e]) ∧
    bodyString (handler ⟨true, Except.error e⟩) =
      "\x7b\"erro\":\"Falha ao ler dados de saída\"\x7d" ∧
    handlerLog ⟨true, Except.error e⟩ =
      ["[ERRO] Lendo saida_posicional.json: " ++ e] :=
  ⟨rfl, rfl, rfl⟩

/-- Claim C8: the handler is deterministic in the observed file-system
state: two invocations with the same existence flag and the same read
result produce identical responses (same status and same serialized
body). -/
theorem c8_deterministic (s1 s2 : FsState)
    (h1 : s1.fileExists = s2.fileExists) (h2 : s1.readResult = s2.readResult) :
    handler s1 = handler s2 ∧
    (handler s1).status = (handler s2).status ∧
    bodyString (handler s1) = bodyString (handler s2) := by
  obtain ⟨e1, r1⟩ := s1
  obtain ⟨e2, r2⟩ := s2
  cases h1
  cases h2
  exact ⟨rfl, rfl, rfl⟩

/-- Witness for C8 at a concrete pair of equal states. -/
theorem c8_deterministic_witness :
    handler ⟨true, Except.ok "[1,2,3]"⟩ = handler ⟨true, Except.ok "[1,2,3]"⟩ :=
  (c8_deterministic ⟨true, Except.ok "[1,2,3]"⟩ ⟨true, Except.ok "[1,2,3]"⟩
    rfl rfl).1

/-- Claim C10: every request classified as ReadFailure gets status 500
with body exactly the fixed object with single key `erro` and value
"Falha ao ler dados de saída", independent of the underlying error. -/
theorem c10_fixed_error_body (s : FsState) (h : isReadFailure s = true) :
    (handler s).status = 500 ∧ (handler s).body = errBody ∧
    bodyString (handler s) = "\x7b\"erro\":\"Falha ao ler dados de saída\"\x7d" := by
  obtain ⟨ex, r⟩ := s
  cases ex with
  | false => simp [isReadFailure] at h
  | true =>
    cases r with
    | error e => exact ⟨rfl, rfl, rfl⟩
    | ok raw =>
      have hp : jsonParse raw = none := by
        simpa [isReadFailure, Option.isNone_iff_eq_none] using h
      have hh : handler ⟨true, Except.ok raw⟩ = ⟨500, errBody⟩ := by
        unfold handler handle
        simp [hp]
      rw [hh]
      exact ⟨rfl, rfl, rfl⟩

/-- Witness for C10 at a concrete I/O failure. -/
theorem c10_fixed_error_body_witness :
    isReadFailure ⟨true, Except.error "EACCES"⟩ = true ∧
    bodyString (handler ⟨true, Except.error "EACCES"⟩) =
      "\x7b\"erro\":\"Falha ao ler dados de saída\"\x7d" :=
  ⟨rfl, (c10_fixed_error_body ⟨true, Except.error "EACCES"⟩ rfl).2.2⟩

/-- Claim C4: if the content parses to a JSON object whose `posicional` is
an array and whose `ultima_atualizacao` is a string, the response is 200
and reproduces the whole object, in particular both fields, unchanged. -/
theorem c4_roundtrip (raw : String) (ps : List (String × JVal)) (u : String)
    (hparse : jsonParse raw = some (JVal.obj ps))
    (hpos : isArrayVal (propLookup ps "posicional") = true)
    (hult : propLookup ps "ultima_atualizacao" = JVal.str u) :
    handler ⟨true, Except.ok raw⟩ = ⟨200, JVal.obj ps⟩ ∧
    getProp (handler ⟨true, Except.ok raw⟩).body "posicional" =
      propLookup ps "posicional" ∧
    getProp (handler ⟨true, Except.ok raw⟩).body "ultima_atualizacao" =
      JVal.str u := by
  have hh := handler_ok_obj raw ps hparse
  rw [if_pos hpos] at hh
  rw [hh]
  exact ⟨rfl, rfl, hult⟩

/-- Witness for C4 at the concrete scenario A content. -/
theorem c4_roundtrip_witness :
    handler ⟨true, Except.ok
        "\x7b\"posicional\":[\x7b\"id\":1\x7d],\"ultima_atualizacao\":\"2024-01-01T00:00:00Z\"\x7d"⟩ =
      ⟨200, JVal.obj
        [("posicional", JVal.arr [JVal.obj [("id", JVal.num "1")]] []),
         ("ultima_atualizacao", JVal.str "2024-01-01T00:00:00Z")]⟩ :=
  (c4_roundtrip
    "\x7b\"posicional\":[\x7b\"id\":1\x7d],\"ultima_atualizacao\":\"2024-01-01T00:00:00Z\"\x7d"
    [("posicional", JVal.arr [JVal.obj [("id", JVal.num "1")]] []),
     ("ultima_atualizacao", JVal.str "2024-01-01T00:00:00Z")]
    "2024-01-01T00:00:00Z" rfl rfl rfl).1

/-- Claim C6: if the content parses to a JSON object whose `posicional`
field is present but not an array, the response is 200, `posicional` is
normalized to the empty array, and `ultima_atualizacao` is passed through
unchanged: same presence and same value as in the source object. -/
theorem c6_normalize_posicional (raw : String) (ps : List (String × JVal))
    (hparse : jsonParse raw = some (JVal.obj ps))
    (hpres : hasProp (JVal.obj ps) "posicional" = true)
    (hnot : isArrayVal (propLookup ps "posicional") = false) :
    (handler ⟨true, Except.ok raw⟩).status = 200 ∧
    getProp (handler ⟨true, Except.ok raw⟩).body "posicional" = JVal.arr [] [] ∧
    getProp (handler ⟨true, Except.ok raw⟩).body "ultima_atualizacao" =
      propLookup ps "ultima_atualizacao" ∧
    hasProp (handler ⟨true, Except.ok raw⟩).body "ultima_atualizacao" =
      hasProp (JVal.obj ps) "ultima_atualizacao" := by
  have hh := handler_ok_obj raw ps hparse
  rw [if_neg (by simp [hnot])] at hh
  rw [hh]
  refine ⟨rfl, ?_, ?_, ?_⟩
  · exact propLookup_setEntry_self ps "posicional" (JVal.arr [] [])
  · exact propLookup_setEntry_ne ps "posicional" "ultima_atualizacao" _ (by decide)
  · exact any_setEntry_ne ps "posicional" "ultima_atualizacao" _ (by decide)

/-- Witness for C6 at a concrete content with a null `posicional`. -/
theorem c6_normalize_posicional_witness :
    getProp (handler ⟨true, Except.ok
        "\x7b\"posicional\":null,\"ultima_atualizacao\":\"t\"\x7d"⟩).body
      "posicional" = JVal.arr [] [] :=
  (c6_normalize_posicional
    "\x7b\"posicional\":null,\"ultima_atualizacao\":\"t\"\x7d"
    [("posicional", JVal.null), ("ultima_atualizacao", JVal.str "t")]
    rfl rfl rfl).2.1

/-- Claim C9: for content parsing to a JSON object, every key other than
`posicional` (including arbitrary extra fields) is passed through to the
response body unchanged: same presence and same value; normalization only
ever rewrites the `posicional` field. -/
theorem c9_frame (raw : String) (ps : List (String × JVal)) (k : String)
    (hparse : jsonParse raw = some (JVal.obj ps)) (hk : k ≠ "posicional") :
    (handler ⟨true, Except.ok raw⟩).status = 200 ∧
    getProp (handler ⟨true, Except.ok raw⟩).body k = propLookup ps k ∧
    hasProp (handler ⟨true, Except.ok raw⟩).body k = hasProp (JVal.obj ps) k := by
  have hh := handler_ok_obj raw ps hparse
  by_cases harr : isArrayVal (propLookup ps "posicional") = true
  · rw [if_pos harr] at hh
    rw [hh]
    exact ⟨rfl, rfl, rfl⟩
  · rw [if_neg harr] at hh
    rw [hh]
    refine ⟨rfl, ?_, ?_⟩
    · exact propLookup_setEntry_ne ps "posicional" k _ hk
    · exact any_setEntry_ne ps "posicional" k _ hk

/-- Witness for C9 at a concrete content with an undocumented extra key. -/
theorem c9_frame_witness :
    getProp (handler ⟨true, Except.ok "\x7b\"extra\":5\x7d"⟩).body "extra" =
      JVal.num "5" :=
  Eq.trans
    ((c9_frame "\x7b\"extra\":5\x7d" [("extra", JVal.num "5")] "extra"
      rfl (by decide)).2.1)
    rfl

/-- Claim C1 counterexample: the file content `[1,2,3]` parses to a bare
array, which passes the `typeof data === "object"` test of the source and
so is not replaced by the default document; the handler attaches a
`posicional` property to the array and `JSON.stringify` drops it again, so
the 200 response body is the bare array `[1,2,3]`, not the object
the claim states. -/
theorem c1_counterexample :
    (handler ⟨true, Except.ok "[1,2,3]"⟩).status = 200 ∧
    (handler ⟨true, Except.ok "[1,2,3]"⟩).body =
      JVal.arr [JVal.num "1", JVal.num "2", JVal.num "3"]
        [("posicional", JVal.arr [] [])] ∧
    isArrayVal (handler ⟨true, Except.ok "[1,2,3]"⟩).body = true ∧
    bodyString (handler ⟨true, Except.ok "[1,2,3]"⟩) = "[1,2,3]" ∧
    bodyString (handler ⟨true, Except.ok "[1,2,3]"⟩) ≠
      "\x7b\"posicional\":[],\"ultima_atualizacao\":null\x7d" :=
  ⟨rfl, rfl, rfl, rfl, by decide⟩

/-- Claim C1 as amended: a parse result that is `null` or a primitive
(boolean, number, string) is replaced by the default document, but a bare
JSON array is typed "object" in JavaScript and kept: the response body is
then the parsed array itself (the attached `posicional` property being
dropped at serialization), so a 200 body can be a bare array. -/
theorem c1_amended (raw : String) (v : JVal) (hparse : jsonParse raw = some v) :
    (typeofStr v ≠ "object" ∨ truthy v = false →
      handler ⟨true, Except.ok raw⟩ = ⟨200, defaultDoc⟩) ∧
    (∀ es, v = JVal.arr es [] →
      bodyString (handler ⟨true, Except.ok raw⟩) = stringifyVal v ∧
      isArrayVal (handler ⟨true, Except.ok raw⟩).body = true) := by
  constructor
  · intro hcase
    have hcond : (!(truthy v) || typeofStr v != "object") = true := by
      rcases hcase with h1 | h1
      · have hb : (typeofStr v != "object") = true := by
          simp [bne_iff_ne, h1]
        simp [hb]
      · simp [h1]
    unfold handler handle
    simp [hparse, hcond, getProp, defaultDoc, propLookup, List.find?,
      isArrayVal]
  · intro es hv
    subst hv
    have hcond : (!(truthy (JVal.arr es [])) ||
        typeofStr (JVal.arr es []) != "object") = false := by
      simp [truthy, typeofStr]
    constructor
    · show stringifyVal (handler ⟨true, Except.ok raw⟩).body = _
      unfold handler handle
      simp [hparse, hcond, getProp, propLookup, List.find?, isArrayVal,
        setProp, setEntry, stringifyVal]
    · unfold handler handle
      simp [hparse, hcond, getProp, propLookup, List.find?, isArrayVal,
        setProp, setEntry]

/-- Witness for C1 as amended, at the concrete scenario B content. -/
theorem c1_amended_witness :
    bodyString (handler ⟨true, Except.ok "[1,2,3]"⟩) =
      stringifyVal (JVal.arr [JVal.num "1", JVal.num "2", JVal.num "3"] []) :=
  ((c1_amended "[1,2,3]"
      (JVal.arr [JVal.num "1", JVal.num "2", JVal.num "3"] []) rfl).2
    [JVal.num "1", JVal.num "2", JVal.num "3"] rfl).1

/-- Claim C2 counterexample: the scenario C file content, an object whose
only key is `posicional` with a string value, yields a 200 whose body
serializes with the single key `posicional`: the `ultima_atualizacao` key
is not present in the response at all, rather than present with value
null as the claim states. -/
theorem c2_counterexample :
    (handler ⟨true, Except.ok
        "\x7b\"posicional\":\"not-an-array\"\x7d"⟩).status = 200 ∧
    hasProp (handler ⟨true, Except.ok
        "\x7b\"posicional\":\"not-an-array\"\x7d"⟩).body
      "ultima_atualizacao" = false ∧
    bodyString (handler ⟨true, Except.ok
        "\x7b\"posicional\":\"not-an-array\"\x7d"⟩) =
      "\x7b\"posicional\":[]\x7d" ∧
    bodyString (handler ⟨true, Except.ok
        "\x7b\"posicional\":\"not-an-array\"\x7d"⟩) ≠
      "\x7b\"posicional\":[],\"ultima_atualizacao\":null\x7d" :=
  ⟨rfl, rfl, rfl, by decide⟩

/-- Claim C2 as amended: in a 200 response for content parsing to a JSON
object, the `ultima_atualizacao` key is present exactly when it is present
in the source object, with its value passed through unchanged; when the
source object lacks the key, the response omits it instead of emitting
null.  The key is present with value null only via the default document
(absent file, or a null or primitive parse result). -/
theorem c2_amended (raw : String) (ps : List (String × JVal))
    (hparse : jsonParse raw = some (JVal.obj ps)) :
    (handler ⟨true, Except.ok raw⟩).status = 200 ∧
    hasProp (handler ⟨true, Except.ok raw⟩).body "ultima_atualizacao" =
      hasProp (JVal.obj ps) "ultima_atualizacao" ∧
    getProp (handler ⟨true, Except.ok raw⟩).body "ultima_atualizacao" =
      propLookup ps "ultima_atualizacao" ∧
    getProp defaultDoc "ultima_atualizacao" = JVal.null := by
  have hh := handler_ok_obj raw ps hparse
  by_cases harr : isArrayVal (propLookup ps "posicional") = true
  · rw [if_pos harr] at hh
    rw [hh]
    exact ⟨rfl, rfl, rfl, rfl⟩
  · rw [if_neg harr] at hh
    rw [hh]
    exact ⟨rfl,
      any_setEntry_ne ps "posicional" "ultima_atualizacao" _ (by decide),
      propLookup_setEntry_ne ps "posicional" "ultima_atualizacao" _ (by decide),
      rfl⟩

/-- Witness for C2 as amended, at the concrete scenario C content. -/
theorem c2_amended_witness :
    hasProp (handler ⟨true, Except.ok
        "\x7b\"posicional\":\"not-an-array\"\x7d"⟩).body
      "ultima_atualizacao" = false :=
  Eq.trans
    ((c2_amended "\x7b\"posicional\":\"not-an-array\"\x7d"
      [("posicional", JVal.str "not-an-array")] rfl).2.1)
    rfl

end SaidaPosicional
